import Mathlib

/-!
ClarityDash analytics core: a shallow embedding.

This file embeds the analytics/forecasting core of the ClarityDash
personal-finance application (the `SimpleLinearRegression` class and the
`/api/ml/predict-expenses` route of `server/routes/ml.js`, and the
`/summary`, `/spending-by-category`, `/savings-projection` and
`/monthly-trends` routes of the analytics router) and proves the spec's
claims about it.

Numbers are modelled as exact rationals (`ℚ`); the JavaScript source uses
IEEE doubles, and the spec states its arithmetic claims in exact
arithmetic.  The JSON serialization layer of `/predict-expenses`
additionally rounds each numeric field to two decimals
(`Math.round(v * 100) / 100`) just before the response is written; the
values modelled here are the ones the route computes (`predictedExpense`,
`confidence`, `trend`, `trendStrength`, `recentAverage`), which are the
lines the spec describes.
-/

namespace ClarityDash

/-- The fitted model kept by `SimpleLinearRegression` (`ml.js`): a slope and
an intercept. -/
structure RegressionModel where
  slope : ℚ
  intercept : ℚ
deriving DecidableEq, Repr

/-- `SimpleLinearRegression.fit(x, y)` (`ml.js` lines 17–38).  The source
throws on mismatched lengths or fewer than two points; that is modelled as
`none`.  The running accumulation of `numerator` and `denominator` mirrors
the `for` loop of the source. -/
def fit (x y : List ℚ) : Option RegressionModel :=
  if x.length ≠ y.length ∨ x.length < 2 then none
  else
    let n : ℚ := x.length
    let xMean := x.sum / n
    let yMean := y.sum / n
    let nd := (x.zip y).foldl
      (fun acc p =>
        (acc.1 + (p.1 - xMean) * (p.2 - yMean), acc.2 + (p.1 - xMean) * (p.1 - xMean)))
      ((0 : ℚ), (0 : ℚ))
    let slope := if nd.2 ≠ 0 then nd.1 / nd.2 else 0
    some ⟨slope, yMean - slope * xMean⟩

/-- `SimpleLinearRegression.predict(x)` (`ml.js` lines 40–42). -/
def RegressionModel.predict (m : RegressionModel) (x : ℚ) : ℚ :=
  m.slope * x + m.intercept

/-- `SimpleLinearRegression.getR2(x, y)` (`ml.js` lines 44–58): the
coefficient of determination of the fitted line on `(x, y)`, with the
guarded division returning `0` when the total sum of squares is `0`. -/
def RegressionModel.getR2 (m : RegressionModel) (x y : List ℚ) : ℚ :=
  let n : ℚ := x.length
  let yMean := y.sum / n
  let ss := (x.zip y).foldl
    (fun acc p =>
      (acc.1 + (p.2 - m.predict p.1) ^ 2, acc.2 + (p.2 - yMean) ^ 2))
    ((0 : ℚ), (0 : ℚ))
  if ss.2 ≠ 0 then 1 - ss.1 / ss.2 else 0

/-- The OLS slope as the spec writes it: `Σ(x−x̄)(y−ȳ) / Σ(x−x̄)²`, with a
default of `0` when the denominator is zero. -/
def olsSlope (x y : List ℚ) : ℚ :=
  let xMean := x.sum / x.length
  let yMean := y.sum / y.length
  let den := (x.map fun v => (v - xMean) ^ 2).sum
  if den = 0 then 0 else ((x.zip y).map fun p => (p.1 - xMean) * (p.2 - yMean)).sum / den

/-- The OLS intercept as the spec writes it: `ȳ − slope·x̄`. -/
def olsIntercept (x y : List ℚ) : ℚ :=
  y.sum / y.length - olsSlope x y * (x.sum / x.length)

/-- A paired left fold that accumulates two sums at once equals the pair of
the two mapped sums. -/
theorem foldl_pair_sum {α : Type} (f g : α → ℚ) (l : List α) (a b : ℚ) :
    l.foldl (fun acc p => (acc.1 + f p, acc.2 + g p)) (a, b)
      = (a + (l.map f).sum, b + (l.map g).sum) := by
  induction l generalizing a b with
  | nil => simp
  | cons x xs ih => simp [ih, add_assoc]

/-- Worker lemma: `fit` computes the OLS closed forms. -/
theorem fit_eq_ols (x y : List ℚ) (hlen : x.length = y.length)
    (h2 : 2 ≤ x.length) :
    fit x y = some ⟨olsSlope x y, olsIntercept x y⟩ := by
  have hcond : ¬(x.length ≠ y.length ∨ x.length < 2) := by
    push_neg
    exact ⟨hlen, h2⟩
  unfold fit
  rw [if_neg hcond]
  simp only [foldl_pair_sum, zero_add]
  have hfst : ((x.zip y).map fun p => (p.1 - x.sum / (x.length : ℚ)) * (p.1 - x.sum / (x.length : ℚ)))
      = x.map fun v => (v - x.sum / (x.length : ℚ)) ^ 2 := by
    rw [show (fun p : ℚ × ℚ =>
          (p.1 - x.sum / (x.length : ℚ)) * (p.1 - x.sum / (x.length : ℚ)))
        = (fun v => (v - x.sum / (x.length : ℚ)) * (v - x.sum / (x.length : ℚ))) ∘ Prod.fst
      from rfl]
    rw [← List.map_map, List.map_fst_zip x y hlen.le]
    simp [sq]
  rw [hfst]
  simp only [olsSlope, olsIntercept, ← hlen]
  by_cases hd : (x.map fun v => (v - x.sum / (x.length : ℚ)) ^ 2).sum = 0 <;>
    simp [hd]

/-- C1.  `SimpleLinearRegression.fit` computes exactly the OLS slope
`Σ(x−x̄)(y−ȳ) / Σ(x−x̄)²` (defaulting to `0` when the denominator is zero)
and the intercept `ȳ − slope·x̄`, for every pair of equal-length series
with at least two points. -/
theorem fit_ols_formula (x y : List ℚ) (hlen : x.length = y.length)
    (h2 : 2 ≤ x.length) :
    fit x y = some ⟨olsSlope x y, olsIntercept x y⟩ :=
  fit_eq_ols x y hlen h2

/-- Witness for C1 at the spec's example: fitting the monthly expense
series `[1000, 1100, 1200]` at indices `[0, 1, 2]` yields slope `100` and
intercept `1000`. -/
theorem fit_ols_formula_example :
    fit [0, 1, 2] [1000, 1100, 1200] = some ⟨100, 1000⟩ ∧
      olsSlope [0, 1, 2] [1000, 1100, 1200] = 100 ∧
      olsIntercept [0, 1, 2] [1000, 1100, 1200] = 1000 := by
  have hs : olsSlope [0, 1, 2] [1000, 1100, 1200] = 100 := by
    norm_num [olsSlope]
  have hi : olsIntercept [0, 1, 2] [1000, 1100, 1200] = 1000 := by
    norm_num [olsIntercept, hs]
  refine ⟨?_, hs, hi⟩
  rw [fit_ols_formula [0, 1, 2] [1000, 1100, 1200] (by decide) (by decide), hs, hi]

/-- The two failure modes of `/predict-expenses`: the structured
insufficient-data response (HTTP 400, `ml.js` lines 100–105) and the
generic catch-all server error (HTTP 500). -/
inductive MlError where
  | insufficientData
  | serverError
deriving DecidableEq, Repr

/-- The values computed by the `/predict-expenses` route (`ml.js`
lines 120–134) for a successful response: the clamped prediction, the
clamped confidence percentage, the trend direction and strength, the
recent average and its difference from the prediction, and the number of
months analysed.  The JSON layer then rounds each numeric field to two
decimals when serializing. -/
structure PredictOutput where
  predictedExpense : ℚ
  confidence : ℚ
  trend : String
  trendStrength : ℚ
  recentAverage : ℚ
  difference : ℚ
  monthsAnalyzed : ℕ
deriving DecidableEq, Repr

/-- The zero-based month indices `[0, 1, …, n−1]` that the route pushes
into `x` while walking `monthlyData`. -/
def monthIndices (n : ℕ) : List ℚ :=
  List.map (fun i : ℕ => (i : ℚ)) (List.range n)

/-- The `/predict-expenses` route (`ml.js` lines 66–158), as a function of
the aggregated monthly expense series (the `totalExpenses` values of the
date-sorted monthly buckets).  Fewer than two buckets yields the
insufficient-data error; a `fit` failure would be caught by the route's
`try`/`catch` and reported as a server error. -/
def predictExpenses (monthlyExpenses : List ℚ) : Except MlError PredictOutput :=
  if monthlyExpenses.length < 2 then .error .insufficientData
  else
    match fit (monthIndices monthlyExpenses.length) monthlyExpenses with
    | none => .error .serverError
    | some regression =>
      let nextMonthIndex : ℚ := monthlyExpenses.length
      let predictedExpense := max 0 (regression.predict nextMonthIndex)
      let r2 := regression.getR2 (monthIndices monthlyExpenses.length) monthlyExpenses
      let confidence := min 100 (max 0 (r2 * 100))
      let trend :=
        if regression.slope > 0 then "increasing"
        else if regression.slope < 0 then "decreasing" else "stable"
      let trendStrength := |regression.slope|
      let recentMonths := monthlyExpenses.drop (monthlyExpenses.length - 3)
      let recentAverage := recentMonths.sum / (recentMonths.length : ℚ)
      .ok
        { predictedExpense := predictedExpense
          confidence := confidence
          trend := trend
          trendStrength := trendStrength
          recentAverage := recentAverage
          difference := predictedExpense - recentAverage
          monthsAnalyzed := monthlyExpenses.length }

/-- With fewer than two monthly buckets the route returns the structured
insufficient-data error. -/
theorem predictExpenses_lt_two (data : List ℚ) (h : data.length < 2) :
    predictExpenses data = .error .insufficientData := by
  simp [predictExpenses, h]

/-- The index list has the requested length. -/
theorem monthIndices_length (n : ℕ) : (monthIndices n).length = n := by
  unfold monthIndices
  rw [List.length_map, List.length_range]

/-- With at least two buckets, `fit` succeeds on the index/expense series. -/
theorem fit_monthIndices_isSome (data : List ℚ) (h2 : 2 ≤ data.length) :
    ∃ m, fit (monthIndices data.length) data = some m := by
  unfold fit
  rw [if_neg]
  · exact ⟨_, rfl⟩
  · push_neg
    rw [monthIndices_length]
    exact ⟨rfl, by omega⟩

/-- Unfolding the successful branch of the route: with at least two
buckets and a fitted model `m`, the route's output fields in terms of
`m`. -/
theorem predictExpenses_ok_eq (data : List ℚ) (m : RegressionModel)
    (h2 : 2 ≤ data.length)
    (hm : fit (monthIndices data.length) data = some m) :
    predictExpenses data = .ok
      { predictedExpense := max 0 (m.predict (data.length : ℚ))
        confidence :=
          min 100 (max 0 (m.getR2 (monthIndices data.length) data * 100))
        trend :=
          if m.slope > 0 then "increasing"
          else if m.slope < 0 then "decreasing" else "stable"
        trendStrength := |m.slope|
        recentAverage :=
          (data.drop (data.length - 3)).sum / ((data.drop (data.length - 3)).length : ℚ)
        difference :=
          max 0 (m.predict (data.length : ℚ)) -
            (data.drop (data.length - 3)).sum / ((data.drop (data.length - 3)).length : ℚ)
        monthsAnalyzed := data.length } := by
  unfold predictExpenses
  rw [if_neg (by omega), hm]

/-- C2.  The route returns the structured insufficient-data error exactly
when the aggregation yields fewer than two monthly expense buckets; with
two or more buckets it succeeds (so in particular it never reports
insufficient data, and never crashes). -/
theorem predictExpenses_insufficient_data (data : List ℚ) :
    (data.length < 2 → predictExpenses data = .error .insufficientData) ∧
      (2 ≤ data.length → ∃ out, predictExpenses data = .ok out) := by
  constructor
  · exact predictExpenses_lt_two data
  · intro h2
    obtain ⟨m, hm⟩ := fit_monthIndices_isSome data h2
    exact ⟨_, predictExpenses_ok_eq data m h2 hm⟩

/-- Witness for C2: a single data point yields the insufficient-data
error, two data points yield a successful response. -/
theorem predictExpenses_insufficient_data_example :
    predictExpenses [100] = .error .insufficientData ∧
      ∃ out, predictExpenses [1000, 1100] = .ok out :=
  ⟨(predictExpenses_insufficient_data [100]).1 (by norm_num),
   (predictExpenses_insufficient_data [1000, 1100]).2 (by norm_num)⟩

/-- A successful response forces at least two months of data. -/
theorem predictExpenses_ok_two_le (data : List ℚ) (out : PredictOutput)
    (hout : predictExpenses data = .ok out) : 2 ≤ data.length := by
  by_contra h
  rw [predictExpenses_lt_two data (by omega)] at hout
  exact absurd hout (by simp)

/-- C3.  On every series on which the route succeeds, the returned
prediction is `max(0, slope·n + intercept)` for the fitted model, where
`n` is the count of historical points — in particular it is never
negative. -/
theorem predictExpenses_prediction_clamped (data : List ℚ)
    (m : RegressionModel) (hm : fit (monthIndices data.length) data = some m)
    (out : PredictOutput) (hout : predictExpenses data = .ok out) :
    out.predictedExpense = max 0 (m.slope * (data.length : ℚ) + m.intercept) ∧
      0 ≤ out.predictedExpense := by
  have h2 := predictExpenses_ok_two_le data out hout
  rw [predictExpenses_ok_eq data m h2 hm] at hout
  cases Except.ok.inj hout
  exact ⟨rfl, le_max_left 0 _⟩

/-- Witness for C3 at the spec's example: for the sharply decreasing
series `[500, 100]` the raw extrapolation `−400·2 + 500 = −300` is
negative and the returned prediction is clamped to `0`. -/
theorem predictExpenses_prediction_clamped_example :
    (predictExpenses [500, 100]).map PredictOutput.predictedExpense = .ok 0 := by
  have hm : fit (monthIndices ([(500 : ℚ), 100].length)) [500, 100] = some ⟨-400, 500⟩ := by
    norm_num [fit, monthIndices, List.range_succ]
  have hout := predictExpenses_ok_eq [500, 100] ⟨-400, 500⟩ (by norm_num) hm
  have h := predictExpenses_prediction_clamped [500, 100] ⟨-400, 500⟩ hm _ hout
  rw [hout]
  exact (congrArg Except.ok h.1).trans
    (congrArg Except.ok (by rw [max_eq_left (by norm_num)]))

/-- C4.  On every successful response the returned confidence is the fit's
R² times 100, clamped to `[0, 100]`; a negative R² would clamp to `0` and
a perfect fit (R² = 1) gives `100`. -/
theorem predictExpenses_confidence_clamped (data : List ℚ)
    (m : RegressionModel) (hm : fit (monthIndices data.length) data = some m)
    (out : PredictOutput) (hout : predictExpenses data = .ok out) :
    out.confidence
        = min 100 (max 0 (m.getR2 (monthIndices data.length) data * 100)) ∧
      (m.getR2 (monthIndices data.length) data < 0 → out.confidence = 0) ∧
      (m.getR2 (monthIndices data.length) data = 1 → out.confidence = 100) := by
  have h2 := predictExpenses_ok_two_le data out hout
  rw [predictExpenses_ok_eq data m h2 hm] at hout
  cases Except.ok.inj hout
  refine ⟨rfl, ?_, ?_⟩
  · intro hneg
    have h0 : m.getR2 (monthIndices data.length) data * 100 ≤ 0 := by nlinarith
    simp only [PredictOutput.confidence]
    rw [max_eq_left h0, min_eq_right (by norm_num : (0 : ℚ) ≤ 100)]
  · intro h1
    simp only [PredictOutput.confidence]
    rw [h1]
    norm_num

/-- Witness for C4 at the spec's example: the perfect linear fit on
`[1000, 1100, 1200]` has R² = 1, so the returned confidence is `100`. -/
theorem predictExpenses_confidence_clamped_example :
    (predictExpenses [1000, 1100, 1200]).map PredictOutput.confidence = .ok 100 := by
  have hm : fit (monthIndices ([(1000 : ℚ), 1100, 1200].length)) [1000, 1100, 1200]
      = some ⟨100, 1000⟩ := by
    norm_num [fit, monthIndices, List.range_succ]
  have hout := predictExpenses_ok_eq [1000, 1100, 1200] ⟨100, 1000⟩ (by norm_num) hm
  have h := predictExpenses_confidence_clamped [1000, 1100, 1200] ⟨100, 1000⟩ hm _ hout
  have hr2 : RegressionModel.getR2 ⟨100, 1000⟩
      (monthIndices ([(1000 : ℚ), 1100, 1200].length)) [1000, 1100, 1200] = 1 := by
    norm_num [RegressionModel.getR2, RegressionModel.predict, monthIndices, List.range_succ]
  rw [hout]
  exact congrArg Except.ok (h.2.2 hr2)

/-- C8.  On every successful response the trend direction is
`"increasing"`, `"decreasing"` or `"stable"` according to the sign of the
fitted slope, and the trend strength is `|slope|`. -/
theorem predictExpenses_trend_direction (data : List ℚ)
    (m : RegressionModel) (hm : fit (monthIndices data.length) data = some m)
    (out : PredictOutput) (hout : predictExpenses data = .ok out) :
    out.trend = (if m.slope > 0 then "increasing"
      else if m.slope < 0 then "decreasing" else "stable") ∧
      out.trendStrength = |m.slope| := by
  have h2 := predictExpenses_ok_two_le data out hout
  rw [predictExpenses_ok_eq data m h2 hm] at hout
  cases Except.ok.inj hout
  exact ⟨rfl, rfl⟩

/-- Witness for C8 at the spec's examples: `[500, 400, 300]` fits a
negative slope and reports `"decreasing"`; `[100, 100, 100]` fits slope
`0` and reports `"stable"`. -/
theorem predictExpenses_trend_direction_example :
    (predictExpenses [500, 400, 300]).map PredictOutput.trend = .ok "decreasing" ∧
      (predictExpenses [100, 100, 100]).map PredictOutput.trend = .ok "stable" := by
  constructor
  · have hm : fit (monthIndices ([(500 : ℚ), 400, 300].length)) [500, 400, 300]
        = some ⟨-100, 500⟩ := by
      norm_num [fit, monthIndices, List.range_succ]
    have hout := predictExpenses_ok_eq [500, 400, 300] ⟨-100, 500⟩ (by norm_num) hm
    have h := predictExpenses_trend_direction [500, 400, 300] ⟨-100, 500⟩ hm _ hout
    rw [hout]
    exact (congrArg Except.ok h.1).trans (congrArg Except.ok (by norm_num))
  · have hm : fit (monthIndices ([(100 : ℚ), 100, 100].length)) [100, 100, 100]
        = some ⟨0, 100⟩ := by
      norm_num [fit, monthIndices, List.range_succ]
    have hout := predictExpenses_ok_eq [100, 100, 100] ⟨0, 100⟩ (by norm_num) hm
    have h := predictExpenses_trend_direction [100, 100, 100] ⟨0, 100⟩ hm _ hout
    rw [hout]
    exact (congrArg Except.ok h.1).trans (congrArg Except.ok (by norm_num))

/-- On a constant series every value equals the mean, so the fitted slope
is `0` and the intercept is the constant. -/
theorem fit_constant (c : ℚ) (data : List ℚ) (hconst : ∀ v ∈ data, v = c)
    (h2 : 2 ≤ data.length) :
    fit (monthIndices data.length) data = some ⟨0, c⟩ := by
  have hx := monthIndices_length data.length
  have hn : ((data.length : ℚ)) ≠ 0 := by
    have : (0 : ℚ) < (data.length : ℚ) := by
      exact_mod_cast Nat.lt_of_lt_of_le (by omega) h2
    exact ne_of_gt this
  have hsum : data.sum = c * data.length := by
    rw [List.eq_replicate_of_mem hconst, List.sum_replicate, List.length_replicate,
      nsmul_eq_mul, mul_comm]
  have hmean : data.sum / (data.length : ℚ) = c := by
    rw [hsum, mul_div_assoc, div_self hn, mul_one]
  rw [fit_eq_ols (monthIndices data.length) data (by rw [hx]) (by rw [hx]; exact h2)]
  have hslope : olsSlope (monthIndices data.length) data = 0 := by
    simp only [olsSlope]
    have hnum : (((monthIndices data.length).zip data).map fun p =>
        (p.1 - (monthIndices data.length).sum / ((monthIndices data.length).length : ℚ))
          * (p.2 - data.sum / (data.length : ℚ))).sum = 0 := by
      apply List.sum_eq_zero
      intro z hz
      obtain ⟨p, hp, rfl⟩ := List.mem_map.mp hz
      have hy : p.2 ∈ data := (List.of_mem_zip hp).2
      rw [hmean, hconst p.2 hy, sub_self, mul_zero]
    rw [hnum]
    by_cases hd :
        ((monthIndices data.length).map fun v =>
          (v - (monthIndices data.length).sum /
            ((monthIndices data.length).length : ℚ)) ^ 2).sum = 0 <;>
      simp [hd]
  have hint : olsIntercept (monthIndices data.length) data = c := by
    unfold olsIntercept
    rw [hslope, hmean, zero_mul, sub_zero]
  rw [hslope, hint]

/-- C10.  On a constant expense series of at least two points, the total
sum of squares is `0`, so `getR2` returns `0` through its guarded
division and the reported confidence is `0` — even though the fitted line
reproduces the data exactly and the prediction equals the constant. -/
theorem constant_series_zero_confidence (c : ℚ) (hc : 0 ≤ c)
    (data : List ℚ) (hconst : ∀ v ∈ data, v = c) (h2 : 2 ≤ data.length)
    (m : RegressionModel) (hm : fit (monthIndices data.length) data = some m)
    (out : PredictOutput) (hout : predictExpenses data = .ok out) :
    (data.map fun v => (v - data.sum / (data.length : ℚ)) ^ 2).sum = 0 ∧
      m.getR2 (monthIndices data.length) data = 0 ∧
      out.confidence = 0 ∧
      out.predictedExpense = c ∧
      ∀ t : ℚ, m.predict t = c := by
  have hx := monthIndices_length data.length
  have hn : ((data.length : ℚ)) ≠ 0 := by
    have : (0 : ℚ) < (data.length : ℚ) := by
      exact_mod_cast Nat.lt_of_lt_of_le (by omega) h2
    exact ne_of_gt this
  have hsum : data.sum = c * data.length := by
    rw [List.eq_replicate_of_mem hconst, List.sum_replicate, List.length_replicate,
      nsmul_eq_mul, mul_comm]
  have hmean : data.sum / (data.length : ℚ) = c := by
    rw [hsum, mul_div_assoc, div_self hn, mul_one]
  obtain rfl : m = ⟨0, c⟩ := by
    have := (fit_constant c data hconst h2).symm.trans hm
    exact (Option.some.inj this).symm
  have hssTot : (((monthIndices data.length).zip data).map fun p =>
      (p.2 - data.sum / ((monthIndices data.length).length : ℚ)) ^ 2).sum = 0 := by
    apply List.sum_eq_zero
    intro z hz
    obtain ⟨p, hp, rfl⟩ := List.mem_map.mp hz
    have hy : p.2 ∈ data := (List.of_mem_zip hp).2
    rw [hx, hmean, hconst p.2 hy, sub_self]
    norm_num
  have hr2 : RegressionModel.getR2 ⟨0, c⟩ (monthIndices data.length) data = 0 := by
    unfold RegressionModel.getR2
    simp only [foldl_pair_sum, zero_add]
    rw [if_neg]
    push_neg
    exact hssTot
  refine ⟨?_, hr2, ?_, ?_, ?_⟩
  · apply List.sum_eq_zero
    intro z hz
    obtain ⟨v, hv, rfl⟩ := List.mem_map.mp hz
    rw [hmean, hconst v hv, sub_self]
    norm_num
  · rw [predictExpenses_ok_eq data ⟨0, c⟩ h2 hm] at hout
    cases Except.ok.inj hout
    simp only [PredictOutput.confidence]
    rw [hr2, zero_mul, max_self, min_eq_right (by norm_num : (0 : ℚ) ≤ 100)]
  · rw [predictExpenses_ok_eq data ⟨0, c⟩ h2 hm] at hout
    cases Except.ok.inj hout
    simp only [PredictOutput.predictedExpense, RegressionModel.predict]
    rw [zero_mul, zero_add, max_eq_right hc]
  · intro t
    unfold RegressionModel.predict
    rw [zero_mul, zero_add]

/-- Witness for C10: the constant series `[100, 100]` yields confidence
`0` while the prediction is the constant `100`. -/
theorem constant_series_zero_confidence_example :
    (predictExpenses [100, 100]).map PredictOutput.confidence = .ok 0 ∧
      (predictExpenses [100, 100]).map PredictOutput.predictedExpense = .ok 100 := by
  have hconst : ∀ v ∈ [(100 : ℚ), 100], v = 100 := by
    intro v hv
    simp at hv
    exact hv
  have hm := fit_constant 100 [100, 100] hconst (by norm_num)
  have hout := predictExpenses_ok_eq [100, 100] ⟨0, 100⟩ (by norm_num) hm
  have h := constant_series_zero_confidence 100 (by norm_num) [100, 100] hconst
    (by norm_num) ⟨0, 100⟩ hm _ hout
  constructor
  · rw [hout]
    exact congrArg Except.ok h.2.2.1
  · rw [hout]
    exact congrArg Except.ok h.2.2.2.1

/-! ## The Aggregator (analytics router, `/summary`, `/spending-by-category`,
`/savings-projection`, `/monthly-trends`)

Transactions live in a document store and the routes aggregate them with
database pipelines (`$match`, `$group`, `$sort`); here the pipeline is
re-expressed as filtering, grouping and sorting of an in-memory list of
transaction records, with a calendar date modelled as year/month/day
integers (a real date has `1 ≤ month ≤ 12`; theorems that need calendar
arithmetic take that as a hypothesis). -/

/-- A calendar date, ordered lexicographically. -/
structure Date where
  year : ℤ
  month : ℤ
  day : ℤ
deriving DecidableEq, Repr

/-- Lexicographic date comparison (the order `$gte`/`$lte` use). -/
def Date.le (a b : Date) : Prop :=
  a.year < b.year ∨ (a.year = b.year ∧
    (a.month < b.month ∨ (a.month = b.month ∧ a.day ≤ b.day)))

instance (a b : Date) : Decidable (Date.le a b) := by
  unfold Date.le
  infer_instance

/-- A stored transaction (the `Transaction` model): owner, kind
(`"income"` or `"expense"`), category, positive amount, and date. -/
structure Txn where
  user : ℕ
  type : String
  category : String
  amount : ℚ
  date : Date
deriving DecidableEq, Repr

/-- The optional `startDate`/`endDate` filter built by the routes:
`date ≥ startDate` and `date ≤ endDate`, each only when supplied. -/
def matchesRange (s e : Option Date) (d : Date) : Bool :=
  (match s with
   | some sd => decide (Date.le sd d)
   | none => true) &&
  (match e with
   | some ed => decide (Date.le d ed)
   | none => true)

/-- The `$match` stage shared by `/summary` and `/spending-by-category`:
the caller's transactions of one kind inside the optional date range. -/
def matchedTxns (txns : List Txn) (uid : ℕ) (kind : String)
    (s e : Option Date) : List Txn :=
  txns.filter fun t => t.user == uid && t.type == kind && matchesRange s e t.date

/-- The `/summary` response body (`totalIncome`, `totalExpenses`,
`netSavings`, `transactionCount`). -/
structure SummaryData where
  totalIncome : ℚ
  totalExpenses : ℚ
  netSavings : ℚ
  transactionCount : ℕ
deriving DecidableEq, Repr

/-- The `/summary` route: total income and total expenses over the
filtered transactions (an empty `$group` result reads as `0` via
`incomeResult[0]?.total || 0`), net savings, and the transaction count. -/
def summary (txns : List Txn) (uid : ℕ) (s e : Option Date) : SummaryData :=
  let totalIncome := ((matchedTxns txns uid "income" s e).map Txn.amount).sum
  let totalExpenses := ((matchedTxns txns uid "expense" s e).map Txn.amount).sum
  { totalIncome := totalIncome
    totalExpenses := totalExpenses
    netSavings := totalIncome - totalExpenses
    transactionCount :=
      (txns.filter fun t => t.user == uid && matchesRange s e t.date).length }

/-- One `$group`-by-category result row: category, summed amount,
transaction count. -/
structure CatGroup where
  category : String
  total : ℚ
  count : ℕ
deriving DecidableEq, Repr

/-- The amount total of one category within a transaction list. -/
def catTotal (l : List Txn) (c : String) : ℚ :=
  ((l.filter fun t => t.category == c).map Txn.amount).sum

/-- The `$group: {_id: '$category', total: {$sum: '$amount'},
count: {$sum: 1}}` stage: one row per distinct category. -/
def groupByCategory (l : List Txn) : List CatGroup :=
  (l.map Txn.category).dedup.map fun c =>
    { category := c
      total := catTotal l c
      count := (l.filter fun t => t.category == c).length }

/-- Stable insertion of `a` into `l` before the first element `b` with
`le a b`. -/
def insertBy {α : Type} (le : α → α → Bool) (a : α) : List α → List α
  | [] => [a]
  | b :: bs => if le a b then a :: b :: bs else b :: insertBy le a bs

/-- Insertion sort with comparison `le`; models the pipeline's `$sort`
stage (the claims only depend on it being a permutation). -/
def sortBy {α : Type} (le : α → α → Bool) : List α → List α
  | [] => []
  | a :: as => insertBy le a (sortBy le as)

/-- Rounding to two decimal digits, as both `Number.prototype.toFixed(2)`
and `Math.round(v * 100) / 100` do on the route's non-negative values. -/
def round2 (v : ℚ) : ℚ :=
  ((round (v * 100) : ℤ) : ℚ) / 100

/-- One entry of the `/spending-by-category` response: the group row
spread together with its percentage, which the source computes as
`((item.total / totalAmount) * 100).toFixed(2)` when `totalAmount > 0`
and `0` otherwise. -/
structure CategoryBucket where
  category : String
  total : ℚ
  count : ℕ
  percentage : ℚ
deriving DecidableEq, Repr

/-- The `/spending-by-category` route: group the caller's filtered
transactions of the requested kind by category, sort descending by
total, and attach percentages; returns the bucket list together with
`totalAmount` (the sum of the grouped totals). -/
def spendingByCategory (txns : List Txn) (uid : ℕ) (ty : String)
    (s e : Option Date) : List CategoryBucket × ℚ :=
  let filtered := matchedTxns txns uid ty s e
  let result := sortBy (fun a b => decide (b.total ≤ a.total)) (groupByCategory filtered)
  let totalAmount := (result.map CatGroup.total).sum
  (result.map fun g =>
      { category := g.category
        total := g.total
        count := g.count
        percentage := if totalAmount > 0 then round2 (g.total / totalAmount * 100) else 0 },
    totalAmount)

/-- `insertBy` produces a permutation of pushing in front. -/
theorem insertBy_perm {α : Type} (le : α → α → Bool) (a : α) :
    ∀ l : List α, (insertBy le a l).Perm (a :: l) := by
  intro l
  induction l with
  | nil => exact List.Perm.refl _
  | cons b bs ih =>
    unfold insertBy
    by_cases h : le a b
    · rw [if_pos h]
    · rw [if_neg h]
      exact (ih.cons b).trans (List.Perm.swap a b bs)

/-- `sortBy` permutes its input. -/
theorem sortBy_perm {α : Type} (le : α → α → Bool) :
    ∀ l : List α, (sortBy le l).Perm l := by
  intro l
  induction l with
  | nil => exact List.Perm.refl _
  | cons a as ih =>
    exact (insertBy_perm le a (sortBy le as)).trans (ih.cons a)

/-- Splitting a category total at a cons cell. -/
theorem catTotal_cons (t : Txn) (ts : List Txn) (c : String) :
    catTotal (t :: ts) c = (if t.category = c then t.amount else 0) + catTotal ts c := by
  unfold catTotal
  rw [List.filter_cons]
  by_cases h : t.category = c
  · simp [h]
  · simp [h]

/-- Summing `if a = c then v else 0` over a duplicate-free list containing
`a` yields `v`. -/
theorem sum_map_ite_eq (a : String) (v : ℚ) :
    ∀ keys : List String, keys.Nodup → a ∈ keys →
      (keys.map fun c => if a = c then v else 0).sum = v := by
  intro keys
  induction keys with
  | nil =>
    intro _ ha
    exact absurd ha (List.not_mem_nil a)
  | cons k ks ih =>
    intro hnd ha
    obtain ⟨hk, hks⟩ := List.nodup_cons.mp hnd
    rcases List.mem_cons.mp ha with h | h
    · subst h
      simp only [List.map_cons, List.sum_cons, if_pos rfl]
      have hz : (ks.map fun c => if a = c then v else 0).sum = 0 := by
        apply List.sum_eq_zero
        intro z hz
        obtain ⟨c, hc, rfl⟩ := List.mem_map.mp hz
        rw [if_neg]
        intro hac
        exact hk (hac ▸ hc)
      rw [hz, add_zero]
      simp
    · have hak : a ≠ k := fun he => hk (he ▸ h)
      simp only [List.map_cons, List.sum_cons, if_neg hak]
      rw [zero_add]
      exact ih hks h

/-- Pointwise sums distribute over a mapped list. -/
theorem sum_map_add {α : Type} (l : List α) (f g : α → ℚ) :
    (l.map fun a => f a + g a).sum = (l.map f).sum + (l.map g).sum := by
  induction l with
  | nil => simp
  | cons x xs ih =>
    simp only [List.map_cons, List.sum_cons, ih]
    ring

/-- Partition identity: summing the per-category totals over any
duplicate-free key list covering all categories of `l` gives the total
amount of `l`. -/
theorem sum_catTotal_keys (keys : List String) (hnd : keys.Nodup) :
    ∀ l : List Txn, (∀ t ∈ l, t.category ∈ keys) →
      (keys.map fun c => catTotal l c).sum = (l.map Txn.amount).sum := by
  intro l
  induction l with
  | nil =>
    intro _
    simp [catTotal]
  | cons t ts ih =>
    intro hsub
    have hmap : (keys.map fun c => catTotal (t :: ts) c)
        = keys.map fun c => (if t.category = c then t.amount else 0) + catTotal ts c :=
      List.map_congr_left fun c _ => catTotal_cons t ts c
    rw [hmap, sum_map_add,
      sum_map_ite_eq t.category t.amount keys hnd (hsub t (List.mem_cons_self t ts)),
      ih fun u hu => hsub u (List.mem_cons_of_mem t hu)]
    simp

/-- The grouped category totals of a transaction list sum to its total
amount. -/
theorem sum_groupByCategory (l : List Txn) :
    ((groupByCategory l).map CatGroup.total).sum = (l.map Txn.amount).sum := by
  unfold groupByCategory
  rw [List.map_map]
  exact sum_catTotal_keys (l.map Txn.category).dedup (List.nodup_dedup _) l
    fun t ht => List.mem_dedup.mpr (List.mem_map_of_mem Txn.category ht)

/-- The `/spending-by-category` bucket totals sum to the total amount of
the matched transactions of the requested kind. -/
theorem spendingByCategory_total_sum (txns : List Txn) (uid : ℕ) (ty : String)
    (s e : Option Date) :
    ((spendingByCategory txns uid ty s e).1.map CategoryBucket.total).sum
      = ((matchedTxns txns uid ty s e).map Txn.amount).sum := by
  unfold spendingByCategory
  rw [List.map_map]
  have h1 : ((sortBy (fun a b => decide (b.total ≤ a.total))
        (groupByCategory (matchedTxns txns uid ty s e))).map CatGroup.total).sum
      = ((groupByCategory (matchedTxns txns uid ty s e)).map CatGroup.total).sum :=
    ((sortBy_perm _ _).map CatGroup.total).sum_eq
  exact h1.trans (sum_groupByCategory _)

/-- C5.  For every user and date range, the per-category totals returned
by `/spending-by-category` sum exactly to the corresponding overall total
of `/summary`: `totalExpenses` for kind `"expense"` and `totalIncome` for
kind `"income"`. -/
theorem category_totals_match_summary (txns : List Txn) (uid : ℕ)
    (s e : Option Date) :
    ((spendingByCategory txns uid "expense" s e).1.map CategoryBucket.total).sum
        = (summary txns uid s e).totalExpenses ∧
      ((spendingByCategory txns uid "income" s e).1.map CategoryBucket.total).sum
        = (summary txns uid s e).totalIncome :=
  ⟨spendingByCategory_total_sum txns uid "expense" s e,
   spendingByCategory_total_sum txns uid "income" s e⟩

/-- Two-decimal rounding moves a value by at most `1/200`. -/
theorem abs_round2_sub_le (v : ℚ) : |round2 v - v| ≤ 1 / 200 := by
  unfold round2
  have h := abs_sub_round (v * 100)
  rw [abs_sub_comm] at h
  have heq : ((round (v * 100) : ℤ) : ℚ) / 100 - v
      = (((round (v * 100) : ℤ) : ℚ) - v * 100) / 100 := by
    ring
  rw [heq, abs_div, abs_of_pos (by norm_num : (0 : ℚ) < 100)]
  calc |((round (v * 100) : ℤ) : ℚ) - v * 100| / 100
      ≤ (1 / 2) / 100 := by gcongr
    _ = 1 / 200 := by norm_num

/-- Summing two-decimal roundings moves a list sum by at most `n/200`. -/
theorem abs_sum_round2 (l : List ℚ) :
    |(l.map round2).sum - l.sum| ≤ (l.length : ℚ) / 200 := by
  induction l with
  | nil => simp
  | cons x xs ih =>
    simp only [List.map_cons, List.sum_cons, List.length_cons]
    have heq : round2 x + (xs.map round2).sum - (x + xs.sum)
        = (round2 x - x) + ((xs.map round2).sum - xs.sum) := by
      ring
    rw [heq]
    calc |(round2 x - x) + ((xs.map round2).sum - xs.sum)|
        ≤ |round2 x - x| + |(xs.map round2).sum - xs.sum| := abs_add _ _
      _ ≤ 1 / 200 + (xs.length : ℚ) / 200 := add_le_add (abs_round2_sub_le x) ih
      _ = ((xs.length : ℚ) + 1) / 200 := by ring
      _ = (((xs.length + 1 : ℕ)) : ℚ) / 200 := by push_cast; ring

/-- Scaling a mapped list by a constant scales the sum. -/
theorem sum_map_mul_const {α : Type} (l : List α) (f : α → ℚ) (c : ℚ) :
    (l.map fun a => f a * c).sum = (l.map f).sum * c := by
  induction l with
  | nil => simp
  | cons x xs ih =>
    simp only [List.map_cons, List.sum_cons, ih]
    ring

/-- The exact percentages of the grouped totals sum to `100` when the
total amount is nonzero. -/
theorem sum_exact_pct (G : List CatGroup)
    (hT : (G.map CatGroup.total).sum ≠ 0) :
    (G.map fun g => g.total / (G.map CatGroup.total).sum * 100).sum = 100 := by
  have h1 : (G.map fun g => g.total / (G.map CatGroup.total).sum * 100)
      = G.map fun g => g.total * (100 / (G.map CatGroup.total).sum) :=
    List.map_congr_left fun g _ => by ring
  rw [h1, sum_map_mul_const]
  rw [mul_comm]
  exact div_mul_cancel₀ 100 hT

/-- C6 (amended).  In every `/spending-by-category` response each
category's percentage is `100 × total ÷ totalAmount` **rounded to two
decimal places** (`toFixed(2)`) when `totalAmount > 0`, and `0` for every
category when `totalAmount = 0` (no division by zero); consequently when
`totalAmount > 0` the percentages sum to `100` up to the accumulated
rounding error, at most `n/200` for `n` categories. -/
theorem spendingByCategory_percentage_rounded (txns : List Txn) (uid : ℕ)
    (ty : String) (s e : Option Date) :
    (∀ b ∈ (spendingByCategory txns uid ty s e).1,
        b.percentage = if (spendingByCategory txns uid ty s e).2 > 0
          then round2 (b.total / (spendingByCategory txns uid ty s e).2 * 100)
          else 0) ∧
      ((spendingByCategory txns uid ty s e).2 > 0 →
        |((spendingByCategory txns uid ty s e).1.map CategoryBucket.percentage).sum - 100|
          ≤ (((spendingByCategory txns uid ty s e).1.length : ℚ)) / 200) ∧
      ((spendingByCategory txns uid ty s e).2 = 0 →
        ∀ b ∈ (spendingByCategory txns uid ty s e).1, b.percentage = 0) := by
  unfold spendingByCategory
  set G := sortBy (fun a b => decide (b.total ≤ a.total))
    (groupByCategory (matchedTxns txns uid ty s e)) with hG
  set T := (G.map CatGroup.total).sum with hT
  refine ⟨?_, ?_, ?_⟩
  · intro b hb
    obtain ⟨g, hg, rfl⟩ := List.mem_map.mp hb
    rfl
  · intro hpos
    have hmap : ((G.map fun g =>
        ({ category := g.category, total := g.total, count := g.count,
           percentage := if T > 0 then round2 (g.total / T * 100) else 0 }
          : CategoryBucket)).map CategoryBucket.percentage)
        = (G.map fun g => g.total / T * 100).map round2 := by
      rw [List.map_map, List.map_map]
      exact List.map_congr_left fun g _ => by simp [if_pos hpos]
    simp only [hmap]
    have hb := abs_sum_round2 (G.map fun g => g.total / T * 100)
    rw [sum_exact_pct G (ne_of_gt hpos)] at hb
    simpa using hb
  · intro h0 b hb
    obtain ⟨g, hg, rfl⟩ := List.mem_map.mp hb
    have h0T : T = 0 := h0
    show (if T > 0 then round2 (g.total / T * 100) else 0) = 0
    rw [if_neg]
    rw [h0T]
    exact lt_irrefl 0

/-- Three expense transactions of `1` in three distinct categories: the
exact percentage of each category is `100/3`, which is not representable
in two decimal digits. -/
def pctCexTxns : List Txn :=
  [{ user := 0, type := "expense", category := "A", amount := 1, date := ⟨2026, 1, 1⟩ },
   { user := 0, type := "expense", category := "B", amount := 1, date := ⟨2026, 1, 2⟩ },
   { user := 0, type := "expense", category := "C", amount := 1, date := ⟨2026, 1, 3⟩ }]

/-- Full evaluation of `/spending-by-category` on `pctCexTxns`: each
percentage is `33.33` (that is, `toFixed(2)` of `33.333…`). -/
theorem pctCexSpending :
    spendingByCategory pctCexTxns 0 "expense" none none
      = ([{ category := "A", total := 1, count := 1, percentage := 3333/100 },
          { category := "B", total := 1, count := 1, percentage := 3333/100 },
          { category := "C", total := 1, count := 1, percentage := 3333/100 }], 3) := by
  have hf : matchedTxns pctCexTxns 0 "expense" none none = pctCexTxns := by
    simp [matchedTxns, pctCexTxns, matchesRange]
  have hcats : (pctCexTxns.map Txn.category).dedup = ["A", "B", "C"] := by
    have h : pctCexTxns.map Txn.category = ["A", "B", "C"] := by
      simp [pctCexTxns]
    rw [h]
    exact List.dedup_eq_self.mpr (by decide)
  have hg : groupByCategory pctCexTxns
      = [⟨"A", 1, 1⟩, ⟨"B", 1, 1⟩, ⟨"C", 1, 1⟩] := by
    unfold groupByCategory
    rw [hcats]
    simp [catTotal, pctCexTxns, List.filter]
  have hs : sortBy (fun a b : CatGroup => decide (b.total ≤ a.total))
      [(⟨"A", 1, 1⟩ : CatGroup), ⟨"B", 1, 1⟩, ⟨"C", 1, 1⟩]
      = [⟨"A", 1, 1⟩, ⟨"B", 1, 1⟩, ⟨"C", 1, 1⟩] := by
    norm_num [sortBy, insertBy]
  have hr2 : round2 ((100 : ℚ) / 3) = 3333/100 := by
    unfold round2
    rw [show (100 : ℚ) / 3 * 100 = 10000/3 by ring, round_eq]
    norm_num
  unfold spendingByCategory
  rw [hf]
  simp only [hg, hs]
  norm_num [hr2]

/-- Counterexample to C6 as stated: on `pctCexTxns` every returned
percentage is `33.33`, while `100 × total ÷ totalAmount` is `100/3`, and
the two differ. -/
theorem spendingByCategory_percentage_not_exact :
    ((spendingByCategory pctCexTxns 0 "expense" none none).1.map
        CategoryBucket.percentage) = [3333/100, 3333/100, 3333/100] ∧
      ((spendingByCategory pctCexTxns 0 "expense" none none).1.map fun b =>
        100 * b.total / (spendingByCategory pctCexTxns 0 "expense" none none).2)
        = [100/3, 100/3, 100/3] ∧
      ¬ ((3333 : ℚ)/100 = 100/3) := by
  rw [pctCexSpending]
  norm_num

/-- Witness for C6 (amended) on `pctCexTxns`: the total is positive and
the rounded percentages sum to within `3/200` of `100` (they sum to
`99.99`). -/
theorem spendingByCategory_percentage_rounded_example :
    (0 : ℚ) < (spendingByCategory pctCexTxns 0 "expense" none none).2 ∧
      |((spendingByCategory pctCexTxns 0 "expense" none none).1.map
          CategoryBucket.percentage).sum - 100|
        ≤ (((spendingByCategory pctCexTxns 0 "expense" none none).1.length : ℚ)) / 200 := by
  have hpos : (0 : ℚ) < (spendingByCategory pctCexTxns 0 "expense" none none).2 := by
    rw [pctCexSpending]
    norm_num
  exact ⟨hpos,
    (spendingByCategory_percentage_rounded pctCexTxns 0 "expense" none none).2.1 hpos⟩

/-! ### Monthly grouping: `/savings-projection` and `/monthly-trends` -/

/-- The absolute month index of a date: `12·year + (month − 1)`. -/
def monthIdx (d : Date) : ℤ :=
  12 * d.year + (d.month - 1)

/-- `startDate.setMonth(endDate.getMonth() - k)`: the same day of month,
`k` calendar months earlier, with year roll-over as JavaScript `Date`
normalizes it (the day-overflow corner of short months is not modelled;
it only shrinks the range further). -/
def subtractMonths (d : Date) (k : ℕ) : Date :=
  let mi := monthIdx d - k
  { year := mi / 12, month := mi % 12 + 1, day := d.day }

/-- The `$match` stage of the two monthly endpoints: the caller's
transactions of either kind with `startDate ≤ date ≤ endDate`. -/
def rangeTxns (txns : List Txn) (uid : ℕ) (s e : Date) : List Txn :=
  txns.filter fun t =>
    t.user == uid && decide (Date.le s t.date) && decide (Date.le t.date e)

/-- The `$group`-by-`{year, month}` keys followed by the ascending
`$sort` on `(year, month)`: one key per month that has at least one
matching transaction. -/
def monthKeys (l : List Txn) : List (ℤ × ℤ) :=
  sortBy (fun a b => decide (a.1 < b.1 ∨ (a.1 = b.1 ∧ a.2 ≤ b.2)))
    ((l.map fun t => (t.date.year, t.date.month)).dedup)

/-- The transactions of one month key. -/
def monthTxns (l : List Txn) (k : ℤ × ℤ) : List Txn :=
  l.filter fun t => t.date.year == k.1 && t.date.month == k.2

/-- One `/monthly-trends` bucket: first-of-month date, conditional sums
of income and expenses, recomputed savings, transaction count. -/
structure TrendBucket where
  date : Date
  income : ℚ
  expenses : ℚ
  savings : ℚ
  transactionCount : ℕ
deriving DecidableEq, Repr

/-- The `/monthly-trends` route: months to analyse is
`min(months, 24)`, the date range reaches that many months back from
`today`, and one bucket is emitted per month that has a matching
transaction. -/
def monthlyTrends (txns : List Txn) (uid : ℕ) (m : ℕ) (today : Date) :
    List TrendBucket :=
  let monthsToAnalyze := min m 24
  let startDate := subtractMonths today monthsToAnalyze
  let filtered := rangeTxns txns uid startDate today
  (monthKeys filtered).map fun k =>
    let mt := monthTxns filtered k
    let income := ((mt.filter fun t => t.type == "income").map Txn.amount).sum
    let expenses := ((mt.filter fun t => t.type == "expense").map Txn.amount).sum
    { date := ⟨k.1, k.2, 1⟩
      income := income
      expenses := expenses
      savings := income - expenses
      transactionCount := mt.length }

/-- One `/savings-projection` historical entry. -/
structure SavingsBucket where
  date : Date
  income : ℚ
  expenses : ℚ
  savings : ℚ
deriving DecidableEq, Repr

/-- The `/savings-projection` route: months to analyse is
`min(months, 12)`; the historical buckets are built like the trends
buckets, and the projection is `null` with fewer than two buckets and
otherwise the arithmetic mean of the last `min(3, n)` monthly savings
values (`savingsValues.slice(-3)`); no regression is fitted. -/
def savingsProjection (txns : List Txn) (uid : ℕ) (m : ℕ) (today : Date) :
    List SavingsBucket × Option ℚ :=
  let monthsToAnalyze := min m 12
  let startDate := subtractMonths today monthsToAnalyze
  let filtered := rangeTxns txns uid startDate today
  let processedData := (monthKeys filtered).map fun k =>
    let mt := monthTxns filtered k
    let income := ((mt.filter fun t => t.type == "income").map Txn.amount).sum
    let expenses := ((mt.filter fun t => t.type == "expense").map Txn.amount).sum
    ({ date := ⟨k.1, k.2, 1⟩
       income := income
       expenses := expenses
       savings := income - expenses } : SavingsBucket)
  let projection : Option ℚ :=
    if 2 ≤ processedData.length then
      let savingsValues := processedData.map SavingsBucket.savings
      let recentSavings := savingsValues.drop (savingsValues.length - 3)
      some (recentSavings.sum / (recentSavings.length : ℚ))
    else none
  (processedData, projection)

/-- On valid calendar dates the lexicographic order is monotone in the
absolute month index. -/
theorem monthIdx_le_of_le (a b : Date)
    (ha : 1 ≤ a.month ∧ a.month ≤ 12) (hb : 1 ≤ b.month ∧ b.month ≤ 12)
    (h : Date.le a b) : monthIdx a ≤ monthIdx b := by
  unfold Date.le at h
  unfold monthIdx
  rcases h with h | ⟨he, h | ⟨hm, _⟩⟩ <;> omega

/-- `subtractMonths` moves the month index back by exactly `k` and yields
a valid month. -/
theorem subtractMonths_spec (d : Date) (k : ℕ) :
    monthIdx (subtractMonths d k) = monthIdx d - k ∧
      1 ≤ (subtractMonths d k).month ∧ (subtractMonths d k).month ≤ 12 := by
  simp only [subtractMonths, monthIdx]
  constructor
  · omega
  · constructor <;> omega

/-- The number of month keys of transactions whose dates lie between two
valid dates is at most the number of calendar months in the range. -/
theorem monthKeys_length_le (l : List Txn) (lo hi : Date)
    (hsub : ∀ t ∈ l, Date.le lo t.date ∧ Date.le t.date hi)
    (hval : ∀ t ∈ l, 1 ≤ t.date.month ∧ t.date.month ≤ 12)
    (hlo : 1 ≤ lo.month ∧ lo.month ≤ 12)
    (hhi : 1 ≤ hi.month ∧ hi.month ≤ 12) :
    (monthKeys l).length ≤ (monthIdx hi - monthIdx lo + 1).toNat := by
  have hlen : (monthKeys l).length
      = ((l.map fun t => (t.date.year, t.date.month)).dedup).length :=
    (sortBy_perm _ _).length_eq
  rw [hlen]
  set D := (l.map fun t => (t.date.year, t.date.month)).dedup with hD
  have hnd : D.Nodup := List.nodup_dedup _
  have horig : ∀ p ∈ D, ∃ t ∈ l, (t.date.year, t.date.month) = p := by
    intro p hp
    obtain ⟨t, ht, hpt⟩ := List.mem_map.mp (List.mem_dedup.mp hp)
    exact ⟨t, ht, hpt⟩
  have hbounds : ∀ p ∈ D, 1 ≤ p.2 ∧ p.2 ≤ 12 ∧
      monthIdx lo ≤ 12 * p.1 + (p.2 - 1) ∧ 12 * p.1 + (p.2 - 1) ≤ monthIdx hi := by
    intro p hp
    obtain ⟨t, ht, hpt⟩ := horig p hp
    obtain ⟨hm1, hm2⟩ := hval t ht
    obtain ⟨hl, hr⟩ := hsub t ht
    have hidx : 12 * p.1 + (p.2 - 1) = monthIdx t.date := by
      rw [← hpt]
      rfl
    refine ⟨by rw [← hpt]; exact hm1, by rw [← hpt]; exact hm2, ?_, ?_⟩
    · rw [hidx]
      exact monthIdx_le_of_le lo t.date hlo ⟨hm1, hm2⟩ hl
    · rw [hidx]
      exact monthIdx_le_of_le t.date hi ⟨hm1, hm2⟩ hhi hr
  have hmapnd : (D.map fun p => 12 * p.1 + (p.2 - 1)).Nodup := by
    apply hnd.map_on
    intro p hp q hq hpq
    obtain ⟨hp1, hp2, -, -⟩ := hbounds p hp
    obtain ⟨hq1, hq2, -, -⟩ := hbounds q hq
    have h1 : p.1 = q.1 := by omega
    have h2 : p.2 = q.2 := by omega
    exact Prod.ext h1 h2
  have hsubset : (D.map fun p => 12 * p.1 + (p.2 - 1)).toFinset
      ⊆ Finset.Icc (monthIdx lo) (monthIdx hi) := by
    intro z hz
    obtain ⟨p, hp, rfl⟩ := List.mem_map.mp (List.mem_toFinset.mp hz)
    obtain ⟨-, -, hzl, hzr⟩ := hbounds p hp
    exact Finset.mem_Icc.mpr ⟨hzl, hzr⟩
  have hcard := Finset.card_le_card hsubset
  rw [List.toFinset_card_of_nodup hmapnd, Int.card_Icc] at hcard
  have hlen2 : (D.map fun p => 12 * p.1 + (p.2 - 1)).length = D.length :=
    List.length_map _ _
  omega

/-- Shared bound for the two monthly endpoints: grouping the caller's
transactions within a range that reaches `k` months back from a valid
`today` yields at most `k + 1` month keys. -/
theorem grouped_months_le (txns : List Txn) (uid : ℕ) (k : ℕ) (today : Date)
    (hval : ∀ t ∈ txns, 1 ≤ t.date.month ∧ t.date.month ≤ 12)
    (htoday : 1 ≤ today.month ∧ today.month ≤ 12) :
    (monthKeys (rangeTxns txns uid (subtractMonths today k) today)).length ≤ k + 1 := by
  obtain ⟨hsm, hsm1, hsm2⟩ := subtractMonths_spec today k
  have hsub : ∀ t ∈ rangeTxns txns uid (subtractMonths today k) today,
      Date.le (subtractMonths today k) t.date ∧ Date.le t.date today := by
    intro t ht
    have hmem := List.mem_filter.mp ht
    have hcond := hmem.2
    simp only [Bool.and_eq_true, decide_eq_true_eq] at hcond
    exact ⟨hcond.1.2, hcond.2⟩
  have hval' : ∀ t ∈ rangeTxns txns uid (subtractMonths today k) today,
      1 ≤ t.date.month ∧ t.date.month ≤ 12 := by
    intro t ht
    exact hval t (List.mem_filter.mp ht).1
  have h := monthKeys_length_le (rangeTxns txns uid (subtractMonths today k) today)
    (subtractMonths today k) today hsub hval' ⟨hsm1, hsm2⟩ htoday
  rw [hsm] at h
  omega

/-- C7 (amended).  For every `/monthly-trends` request with month count
`m` the bucket list has at most `min(m, 24) + 1` entries, and for every
`/savings-projection` request at most `min(m, 12) + 1`: the server limits
the **date range** to reach `min(m, 24)` (resp. `min(m, 12)`) months back
from today, a window that touches up to one more calendar month; the
bucket list itself is never truncated. -/
theorem bucket_count_bound (txns : List Txn) (uid : ℕ) (m : ℕ) (today : Date)
    (hval : ∀ t ∈ txns, 1 ≤ t.date.month ∧ t.date.month ≤ 12)
    (htoday : 1 ≤ today.month ∧ today.month ≤ 12) :
    (monthlyTrends txns uid m today).length ≤ min m 24 + 1 ∧
      (savingsProjection txns uid m today).1.length ≤ min m 12 + 1 := by
  constructor
  · have h := grouped_months_le txns uid (min m 24) today hval htoday
    calc (monthlyTrends txns uid m today).length
        = (monthKeys (rangeTxns txns uid (subtractMonths today (min m 24)) today)).length :=
          List.length_map _ _
      _ ≤ min m 24 + 1 := h
  · have h := grouped_months_le txns uid (min m 12) today hval htoday
    calc (savingsProjection txns uid m today).1.length
        = (monthKeys (rangeTxns txns uid (subtractMonths today (min m 12)) today)).length :=
          List.length_map _ _
      _ ≤ min m 12 + 1 := h

/-- Two expense transactions in adjacent calendar months, both within the
one-month window reaching back from 2026-10-11. -/
def trendCexTxns : List Txn :=
  [{ user := 0, type := "expense", category := "A", amount := 1, date := ⟨2026, 9, 20⟩ },
   { user := 0, type := "expense", category := "A", amount := 2, date := ⟨2026, 10, 5⟩ }]

/-- Counterexample to C7 as stated: a `/monthly-trends` request with
`months = 1` returns two monthly buckets (September and October both
intersect the window 2026-09-11 … 2026-10-11), exceeding
`min(1, 24) = 1`. -/
theorem monthlyTrends_exceeds_min :
    (monthlyTrends trendCexTxns 0 1 ⟨2026, 10, 11⟩).length = 2 ∧
      min 1 24 = 1 ∧
      ¬((monthlyTrends trendCexTxns 0 1 ⟨2026, 10, 11⟩).length ≤ min 1 24) := by
  refine ⟨by decide, rfl, ?_⟩
  rw [show (monthlyTrends trendCexTxns 0 1 ⟨2026, 10, 11⟩).length = 2 from by decide]
  decide

/-- Witness for C7 (amended) at the same request: both endpoint bucket
counts respect the `+1` bound. -/
theorem bucket_count_bound_example :
    (monthlyTrends trendCexTxns 0 1 ⟨2026, 10, 11⟩).length ≤ min 1 24 + 1 ∧
      (savingsProjection trendCexTxns 0 1 ⟨2026, 10, 11⟩).1.length ≤ min 1 12 + 1 :=
  bucket_count_bound trendCexTxns 0 1 ⟨2026, 10, 11⟩ (by decide) (by decide)

/-- The projection component of `/savings-projection`, written with the
response's own historical list. -/
theorem savingsProjection_snd_eq (txns : List Txn) (uid : ℕ) (m : ℕ) (today : Date) :
    (savingsProjection txns uid m today).2
      = if 2 ≤ (savingsProjection txns uid m today).1.length then
          some ((((savingsProjection txns uid m today).1.map SavingsBucket.savings).drop
              (((savingsProjection txns uid m today).1.map SavingsBucket.savings).length - 3)).sum
            / ((((savingsProjection txns uid m today).1.map SavingsBucket.savings).drop
              (((savingsProjection txns uid m today).1.map SavingsBucket.savings).length - 3)).length : ℚ))
        else none := rfl

/-- C9.  The `/savings-projection` projection is `null` when fewer than
two monthly buckets exist, and otherwise is the arithmetic mean of the
last `min(3, n)` monthly savings values — a sliding average, not a
regression extrapolation. -/
theorem savingsProjection_projection_mean (txns : List Txn) (uid : ℕ) (m : ℕ)
    (today : Date) :
    ((savingsProjection txns uid m today).1.length < 2 →
        (savingsProjection txns uid m today).2 = none) ∧
      (2 ≤ (savingsProjection txns uid m today).1.length →
        (savingsProjection txns uid m today).2
          = some ((((savingsProjection txns uid m today).1.map SavingsBucket.savings).drop
                ((savingsProjection txns uid m today).1.length - 3)).sum
              / ((min 3 (savingsProjection txns uid m today).1.length : ℕ) : ℚ))) := by
  have hsnd := savingsProjection_snd_eq txns uid m today
  constructor
  · intro h
    rw [hsnd, if_neg (by omega)]
  · intro h2
    rw [hsnd, if_pos h2]
    congr 1
    rw [List.length_map, List.length_drop, List.length_map]
    congr 1
    rw [show (savingsProjection txns uid m today).1.length -
        ((savingsProjection txns uid m today).1.length - 3)
        = min 3 (savingsProjection txns uid m today).1.length from by omega]

/-- Three transactions over September and October 2026: savings 200 then
50, so the projection is their mean, 125. -/
def savCexTxns : List Txn :=
  [{ user := 0, type := "income", category := "Pay", amount := 300, date := ⟨2026, 9, 10⟩ },
   { user := 0, type := "expense", category := "Food", amount := 100, date := ⟨2026, 9, 12⟩ },
   { user := 0, type := "income", category := "Pay", amount := 50, date := ⟨2026, 10, 5⟩ }]

/-- Witness for C9: two monthly buckets with savings `[200, 50]` yield
the projection `125`. -/
theorem savingsProjection_projection_mean_example :
    2 ≤ (savingsProjection savCexTxns 0 6 ⟨2026, 10, 11⟩).1.length ∧
      (savingsProjection savCexTxns 0 6 ⟨2026, 10, 11⟩).2 = some 125 := by
  have hlen : (savingsProjection savCexTxns 0 6 ⟨2026, 10, 11⟩).1.length = 2 := by
    decide
  have hf : rangeTxns savCexTxns 0 (subtractMonths ⟨2026, 10, 11⟩ (min 6 12))
      ⟨2026, 10, 11⟩ = savCexTxns := by
    decide
  have hkeys : monthKeys savCexTxns = [((2026 : ℤ), (9 : ℤ)), (2026, 10)] := by
    decide
  have hsav : (savingsProjection savCexTxns 0 6 ⟨2026, 10, 11⟩).1.map
      SavingsBucket.savings = [200, 50] := by
    simp only [savingsProjection, hf, hkeys, List.map_cons, List.map_nil]
    simp [monthTxns, savCexTxns, List.filter]
    norm_num
  refine ⟨by rw [hlen], ?_⟩
  have h := (savingsProjection_projection_mean savCexTxns 0 6 ⟨2026, 10, 11⟩).2
    (by rw [hlen])
  rw [h, hlen, hsav]
  norm_num

end ClarityDash
